import Mathlib

/-!
Shallow embedding of `src/main.rs` of xerox-rs, a one-shot tree-migration
tool that copies a source cloud-sync mount into a target mount, after
materializing placeholder "stub" files.

Modelling choices:
* a Rust `Path`/`PathBuf` is an absolute-flag plus its list of normal
  components (`RPath`); `join`, `strip_prefix`, `parent` and `file_name`
  follow the component semantics of `std::path`, in particular
  `join` with an absolute argument replaces the receiver;
* the filesystem is explicit state: an association list of files
  (path, content) plus a list of existing directories;
* `File::open` / `Read::read` outcomes are supplied as explicit traces,
  so the retry loop of `fetch_file_with_progress` and its streaming loop
  become pure functions of those traces;
* the source tree walked by `visit_dirs` is an inductive tree.
-/

namespace Xerox

/-- Model of a Rust `Path` / `PathBuf`: absolute-flag plus normal components. -/
structure RPath where
  absolute : Bool
  components : List String
deriving DecidableEq

namespace RPath

/-- Rust `Path::join`: an absolute argument replaces `self`
(`std::path::PathBuf::push` semantics). -/
def join (p q : RPath) : RPath :=
  if q.absolute then q else ⟨p.absolute, p.components ++ q.components⟩

/-- Rust `Path::strip_prefix root` (component-wise): drops `root` from the front
when it is a component prefix, producing a relative path; `none` otherwise. -/
def stripRoot (p root : RPath) : Option RPath :=
  if p.absolute = root.absolute ∧ root.components.isPrefixOf p.components then
    some ⟨false, p.components.drop root.components.length⟩
  else none

/-- Rust `Path::parent`: drop the last component; `none` for a root or empty path. -/
def parent (p : RPath) : Option RPath :=
  match p.components with
  | [] => none
  | _ :: _ => some ⟨p.absolute, p.components.dropLast⟩

/-- Rust `DirEntry::file_name`: the final component (empty string if none). -/
def fileName (p : RPath) : String :=
  p.components.getLast?.getD ""

/-- Rust `Path::new("")`: the empty relative path (identity for `join`). -/
def empty : RPath := ⟨false, []⟩

/-- Sort key: paths compare lexicographically, absolute-flag first.
This realises the total order `PathBuf : Ord` used by the sorts in
`visit_dirs`. -/
def key (p : RPath) : Bool ×ₗ List String := toLex (p.absolute, p.components)

instance : LinearOrder RPath :=
  LinearOrder.lift' key (by
    intro a b h
    cases a; cases b
    simpa [key, Prod.ext_iff] using h)

end RPath

/-- Function `create_target_directory_structure`, path computation only (line 34-35 of
`main.rs`): `source.strip_prefix(source_root).unwrap_or(source).parent()
.unwrap_or(Path::new(""))`, joined onto `target`. -/
def targetDirPath (source target source_root : RPath) : RPath :=
  let relative := (((source.stripRoot source_root).getD source).parent).getD RPath.empty
  target.join relative

/-! ### Filesystem state -/

/-- Explicit filesystem state: regular files as an association list from
path to byte content (modelled as a string), plus the set of directories
that exist, as a list. -/
structure FS where
  files : List (RPath × String)
  dirs : List RPath
deriving DecidableEq

namespace FS

/-- Rust `Path::exists`: true when any object (file or directory) sits at `p`. -/
def existsAt (fs : FS) (p : RPath) : Bool :=
  fs.files.any (fun q => q.1 = p) || fs.dirs.contains p

/-- All prefixes of `p` (itself included): the directories
`fs::create_dir_all` brings into existence. -/
def dirChain (p : RPath) : List RPath :=
  (List.range (p.components.length + 1)).map
    (fun n => ⟨p.absolute, p.components.take n⟩)

/-- Rust `fs::create_dir_all p`: create `p` and every missing ancestor. -/
def createDirAll (fs : FS) (p : RPath) : FS :=
  { fs with dirs := fs.dirs ++ (dirChain p).filter (fun a => !fs.dirs.contains a) }

end FS

/-- Function `create_target_directory_structure` (lines 33-42 of `main.rs`):
computes the mapped target directory and, when nothing exists at that
path, creates it with all missing ancestors.  Whatever object already
sits there — directory or regular file — makes it return the path as
success without creating or checking anything. -/
def create_target_directory_structure (fs : FS) (source target source_root : RPath) :
    FS × RPath :=
  let target_path := targetDirPath source target source_root
  if fs.existsAt target_path then (fs, target_path)
  else (fs.createDirAll target_path, target_path)

/-- The exact target path of a source file: the mapped directory joined
with the file name, as computed in `move_file` (line 109). -/
def fileTargetPath (source target source_root : RPath) : RPath :=
  (targetDirPath source target source_root).join ⟨false, [source.fileName]⟩

/-- Function `move_file` (lines 101-130): ensure the target directory, then skip if
anything already exists at the exact target path, else copy the bytes.
Returns the updated state and `true` when a copy was performed
(`false` = skipped because already present). -/
def move_file (fs : FS) (source_path : RPath) (content : String)
    (target_root source_root : RPath) : FS × Bool :=
  let step := create_target_directory_structure fs source_path target_root source_root
  let target_path := step.2.join ⟨false, [source_path.fileName]⟩
  if step.1.existsAt target_path then (step.1, false)
  else ({ step.1 with files := step.1.files ++ [(target_path, content)] }, true)

/-- One migration pass over a catalog of (source path, content) entries,
counting the copies actually performed (the writes). -/
def migrateAll (fs : FS) (entries : List (RPath × String))
    (target_root source_root : RPath) : FS × Nat :=
  entries.foldl
    (fun st e =>
      let step := move_file st.1 e.1 e.2 target_root source_root
      (step.1, st.2 + (if step.2 then 1 else 0)))
    (fs, 0)

/-! ### Stub materialization (`fetch_file_with_progress`) -/

/-- The `std::io::ErrorKind` values the retry loop distinguishes. -/
inductive IoKind
  | permissionDenied
  | wouldBlock
  | otherKind
deriving DecidableEq

/-- A model `std::io::Error`: just its kind. -/
structure IoErr where
  kind : IoKind
deriving DecidableEq

/-- The transient-error test of line 78: `PermissionDenied` or `WouldBlock`. -/
def IoErr.isTransient (e : IoErr) : Bool :=
  e.kind = IoKind.permissionDenied || e.kind = IoKind.wouldBlock

/-- Outcome of one `file.read(&mut buffer)` call. -/
inductive ReadStep
  | ok (bytes : Nat)
  | err (e : IoErr)
deriving DecidableEq

/-- Outcome of one `File::open` attempt: on success, the trace of reads the
opened handle will deliver. -/
inductive OpenStep
  | ok (reads : List ReadStep)
  | err (e : IoErr)
deriving DecidableEq

/-- Result of `fetch_file_with_progress`. -/
inductive FetchResult
  | success
  | lockTimeout
  | ioError (e : IoErr)
deriving DecidableEq

/-- Observable trace of one materialization: its result, how many
`File::open` calls were made, and the sleeps (in seconds) performed. -/
structure FetchTrace where
  result : FetchResult
  openAttempts : Nat
  sleeps : List Nat
deriving DecidableEq

/-- The streaming loop of lines 64-72: `while let Ok(bytes_read) =
file.read(..)` accumulates `total_read` until a read returns `Ok(0)` or —
silently — any `Err`. -/
def streamTotal : List ReadStep → Nat
  | [] => 0
  | ReadStep.ok 0 :: _ => 0
  | ReadStep.ok (n + 1) :: rest => (n + 1) + streamTotal rest
  | ReadStep.err _ :: _ => 0

/-- The retry loop of lines 60-93.  `opens i` is the outcome of the `i`-th
`File::open(&path)`; `remaining` counts the retries still allowed, i.e.
`remaining = 5 - retries` for the ascending counter of the source, so the
source guard `retries >= 5` is `remaining = 0`.  A successful open streams
the whole read trace and returns `Ok` no matter what the reads did; a
transient failure with retries left sleeps 2 seconds and reopens; a
transient failure with none left is the lock timeout; any other failure
propagates immediately. -/
def fetchLoop (opens : Nat → OpenStep) : Nat → Nat → FetchTrace
  | remaining, idx =>
    match opens idx with
    | OpenStep.ok _reads => ⟨FetchResult.success, idx + 1, []⟩
    | OpenStep.err e =>
      if e.isTransient then
        match remaining with
        | 0 => ⟨FetchResult.lockTimeout, idx + 1, []⟩
        | r + 1 =>
          let t := fetchLoop opens r (idx + 1)
          ⟨t.result, t.openAttempts, 2 :: t.sleeps⟩
      else ⟨FetchResult.ioError e, idx + 1, []⟩

/-- Function `fetch_file_with_progress` (lines 45-98): a file whose reported size is
zero (including an unreadable size, `unwrap_or(0)`) is a stub and enters
the retry loop with 5 retries available; any other file is an immediate
no-op success with no open at all. -/
def fetch_file_with_progress (size : Option Nat) (opens : Nat → OpenStep) : FetchTrace :=
  if size.getD 0 = 0 then fetchLoop opens 5 0
  else ⟨FetchResult.success, 0, []⟩

/-! ### Catalog building (`visit_dirs`) -/

/-- A discovered file: the `DirEntry` data `visit_dirs` keeps — absolute
path and the size reported by `get_file_size` (`None` when the metadata
is unreadable). -/
structure FileC where
  path : RPath
  size : Option Nat
deriving DecidableEq

/-- Rust `Option<u64> : Ord`: `None` is smaller than every `Some`. -/
def optLe : Option Nat → Option Nat → Bool
  | none, _ => true
  | some _, none => false
  | some m, some n => decide (m ≤ n)

/-- Rust `Vec::dedup_by` with the last retained element on the left: keeps the
first element of every run of consecutive `same`-related elements. -/
def dedupKeep (same : α → α → Bool) : α → List α → List α
  | _, [] => []
  | a, b :: rest =>
    if same b a then dedupKeep same a rest else b :: dedupKeep same b rest

/-- Rust `Vec::dedup_by(same)`: drop every element `same` as the one last kept. -/
def rustDedupBy (same : α → α → Bool) : List α → List α
  | [] => []
  | a :: rest => a :: dedupKeep same a rest

/-- Comparison used by `files.par_sort_by_key(|a| a.path())`. -/
def filePathLe (a b : FileC) : Prop := a.path ≤ b.path

instance : DecidableRel filePathLe := fun a b => by
  unfold filePathLe; infer_instance

instance : IsTotal FileC filePathLe := ⟨fun a b => le_total a.path b.path⟩

instance : IsTrans FileC filePathLe := ⟨fun _ _ _ h h2 => le_trans h h2⟩

/-- Comparison used by `files.par_sort_by(|a, b|
get_file_size(b).cmp(&get_file_size(a)))`: descending by reported size,
with the `Option` order of Rust. -/
def fileSizeDesc (a b : FileC) : Prop := optLe b.size a.size = true

instance : DecidableRel fileSizeDesc := fun a b => by
  unfold fileSizeDesc; infer_instance

instance : IsTotal FileC fileSizeDesc :=
  ⟨fun a b => by
    rcases a with ⟨_, _ | m⟩ <;> rcases b with ⟨_, _ | n⟩ <;>
      simp [fileSizeDesc, optLe] <;> omega⟩

instance : IsTrans FileC fileSizeDesc :=
  ⟨fun a b c h h2 => by
    rcases a with ⟨_, _ | m⟩ <;> rcases b with ⟨_, _ | n⟩ <;> rcases c with ⟨_, _ | k⟩ <;>
      simp_all [fileSizeDesc, optLe] <;> omega⟩

/-- The post-processing of the file list at the end of `visit_dirs`
(lines 164-172): sort by path, dedup by path equality, then re-sort
descending by reported size. -/
def processFiles (files : List FileC) : List FileC :=
  List.insertionSort fileSizeDesc
    (rustDedupBy (fun a b => decide (a.path = b.path))
      (List.insertionSort filePathLe files))

/-- The post-processing of the directory list (lines 168-169):
`par_sort_unstable` then `dedup`. -/
def processDirs (dirs : List RPath) : List RPath :=
  rustDedupBy (fun a b => decide (a = b))
    (List.insertionSort (fun a b : RPath => a ≤ b) dirs)

/-- The source tree as seen through the filesystem-status checks of
`visit_dirs`: every node is a regular file (with its reported size) or a
directory with children.  Entries that are neither are skipped by the
source and are not modelled. -/
inductive FTree
  | file (name : String) (size : Option Nat)
  | dir (name : String) (children : List FTree)

mutual

/-- Function `visit_dirs` (lines 133-175): a non-directory root only logs
`"{} is not a dir"` and leaves both lists empty; a directory is listed,
its children classified and recursed into, the branch results merged and
then post-processed.  The function returns `Ok` in both cases; the only
`Err` path in the source is a failing `read_dir`, which the tree model
does not produce. -/
def visit_dirs : RPath → FTree → Except IoErr (List FileC × List RPath)
  | _, FTree.file _ _ => Except.ok (processFiles [], processDirs [])
  | p, FTree.dir _ children =>
    let step := visitChildren p children
    let files := step.1 ++ step.2.flatMap (fun t => t.2.1)
    let dirs := step.2.flatMap (fun t => t.1 :: t.2.2)
    Except.ok (processFiles files, processDirs dirs)

/-- The `into_par_iter().filter_map(..).unzip()` of lines 140-152: direct
file children become entries; directory children are recursed into,
producing `(path, sub_files, sub_dirs)` triples; a failing recursion
(`.ok()?`) silently drops that subtree. -/
def visitChildren : RPath → List FTree →
    List FileC × List (RPath × (List FileC × List RPath))
  | _, [] => ([], [])
  | p, FTree.file n sz :: rest =>
    let step := visitChildren p rest
    (⟨p.join ⟨false, [n]⟩, sz⟩ :: step.1, step.2)
  | p, FTree.dir n cs :: rest =>
    let sub := visit_dirs (p.join ⟨false, [n]⟩) (FTree.dir n cs)
    let step := visitChildren p rest
    match sub with
    | Except.ok r => (step.1, (p.join ⟨false, [n]⟩, r) :: step.2)
    | Except.error _ => step

end

/-! ### The run (`main`) -/

/-- The lock-timeout error built at line 82:
`io::Error::new(ErrorKind::Other, "File lock timeout")`. -/
def lockTimeoutErr : IoErr := ⟨IoKind.otherKind⟩

/-- Map a fetch outcome onto the `io::Result` the per-file closure sees. -/
def FetchTrace.toResult (t : FetchTrace) : Except IoErr Unit :=
  match t.result with
  | FetchResult.success => Except.ok ()
  | FetchResult.lockTimeout => Except.error lockTimeoutErr
  | FetchResult.ioError e => Except.error e

/-- The per-file closure of lines 214-229: fetch (an error is logged and
returned for this entry), then `move_file` (whose filesystem-level copy
the model lets succeed). -/
def perEntry (fs : FS) (contents : RPath → String) (opens : RPath → Nat → OpenStep)
    (f : FileC) (target_root source_root : RPath) : FS × Except IoErr Unit :=
  match (fetch_file_with_progress f.size (opens f.path)).toResult with
  | Except.error e => (fs, Except.error e)
  | Except.ok _ =>
    ((move_file fs f.path (contents f.path) target_root source_root).1, Except.ok ())

/-- The per-file phase of `main`: `par_iter().map(..).collect::<Result<
Vec<_>, _>>()`.  Rayon collects `Result`s through `while_some()`: the
first error halts the iterator, entries not yet started are skipped, and
that error is the collected value; only if every entry succeeded is the
collection `Ok`.  Sequentialised in catalog order: process entries until
one fails, then stop. -/
def runFiles (contents : RPath → String) (opens : RPath → Nat → OpenStep)
    (target_root source_root : RPath) :
    FS → List FileC → FS × Except IoErr Unit
  | fs, [] => (fs, Except.ok ())
  | fs, f :: rest =>
    let step := perEntry fs contents opens f target_root source_root
    match step.2 with
    | Except.ok _ => runFiles contents opens target_root source_root step.1 rest
    | Except.error e => (step.1, Except.error e)

/-- Function `main` (lines 177-233) after argument parsing: traverse the source
root (a failure there is returned at once), create the mapped directory
for every catalogued directory, then run the per-file phase; the `?` on
the collected per-file results makes `main` return the error at which the
collection stopped, and `Ok` only if every entry succeeded. -/
def mainRun (tree : FTree) (fs : FS) (contents : RPath → String)
    (opens : RPath → Nat → OpenStep) (source_root target_root : RPath) :
    FS × Except IoErr Unit :=
  match visit_dirs source_root tree with
  | Except.error e => (fs, Except.error e)
  | Except.ok (files, dirs) =>
    let fs1 := dirs.foldl
      (fun s d => (create_target_directory_structure s d target_root source_root).1) fs
    runFiles contents opens target_root source_root fs1 files

/-- The per-entry result `collect` sees: in this model the
filesystem-level copy succeeds, so only the fetch outcome decides it. -/
def entryResult (opens : RPath → Nat → OpenStep) (f : FileC) : Except IoErr Unit :=
  (fetch_file_with_progress f.size (opens f.path)).toResult

/-- Decidable test that an open attempt failed with a transient error. -/
def transientErr : OpenStep → Bool
  | OpenStep.ok _ => false
  | OpenStep.err e => e.isTransient

/-! ## Theorems -/

/-- Membership form of `FS.existsAt`. -/
theorem existsAt_iff_mem (fs : FS) (q : RPath) :
    fs.existsAt q = true ↔ (∃ e ∈ fs.files, e.1 = q) ∨ q ∈ fs.dirs := by
  simp [FS.existsAt, List.any_eq_true]

/-- The directory component of `create_target_directory_structure` output. -/
theorem ctds_snd (fs : FS) (source target source_root : RPath) :
    (create_target_directory_structure fs source target source_root).2
      = targetDirPath source target source_root := by
  simp only [create_target_directory_structure]
  split <;> rfl

/-- The file map is untouched by `create_target_directory_structure`. -/
theorem ctds_files (fs : FS) (source target source_root : RPath) :
    (create_target_directory_structure fs source target source_root).1.files = fs.files := by
  simp only [create_target_directory_structure]
  split <;> rfl

/-- Existence of any object survives `create_target_directory_structure`. -/
theorem ctds_mono (fs : FS) (source target source_root q : RPath)
    (h : fs.existsAt q = true) :
    (create_target_directory_structure fs source target source_root).1.existsAt q = true := by
  simp only [create_target_directory_structure]
  split
  · exact h
  · rcases (existsAt_iff_mem fs q).mp h with hf | hd
    · exact (existsAt_iff_mem _ q).mpr (Or.inl hf)
    · exact (existsAt_iff_mem _ q).mpr (Or.inr (by
        simp only [FS.createDirAll, List.mem_append]
        exact Or.inl hd))

/-- After `create_target_directory_structure`, the mapped directory exists. -/
theorem ctds_creates (fs : FS) (source target source_root : RPath) :
    (create_target_directory_structure fs source target source_root).1.existsAt
      (targetDirPath source target source_root) = true := by
  simp only [create_target_directory_structure]
  split
  · assumption
  · next hnot =>
    refine (existsAt_iff_mem _ _).mpr (Or.inr ?_)
    simp only [FS.createDirAll, List.mem_append, List.mem_filter]
    have hmem : targetDirPath source target source_root
        ∈ FS.dirChain (targetDirPath source target source_root) := by
      simp only [FS.dirChain, List.mem_map, List.mem_range]
      exact ⟨(targetDirPath source target source_root).components.length,
        by omega, by simp⟩
    by_cases hc : targetDirPath source target source_root ∈ fs.dirs
    · exact Or.inl hc
    · exact Or.inr ⟨hmem, by simpa using hc⟩

/-- Existence of any object survives `move_file`. -/
theorem move_file_mono (fs : FS) (sp : RPath) (c : String) (tr sr q : RPath)
    (h : fs.existsAt q = true) :
    (move_file fs sp c tr sr).1.existsAt q = true := by
  have h1 := ctds_mono fs sp tr sr q h
  simp only [move_file]
  split
  · exact h1
  · rcases (existsAt_iff_mem _ q).mp h1 with hf | hd
    · refine (existsAt_iff_mem _ q).mpr (Or.inl ?_)
      obtain ⟨e, he, heq⟩ := hf
      exact ⟨e, List.mem_append_left _ he, heq⟩
    · exact (existsAt_iff_mem _ q).mpr (Or.inr hd)

/-- After `move_file`, the mapped target directory exists. -/
theorem move_file_dir_exists (fs : FS) (sp : RPath) (c : String) (tr sr : RPath) :
    (move_file fs sp c tr sr).1.existsAt (targetDirPath sp tr sr) = true := by
  have h1 := ctds_creates fs sp tr sr
  simp only [move_file]
  split
  · exact h1
  · rcases (existsAt_iff_mem _ _).mp h1 with hf | hd
    · refine (existsAt_iff_mem _ _).mpr (Or.inl ?_)
      obtain ⟨e, he, heq⟩ := hf
      exact ⟨e, List.mem_append_left _ he, heq⟩
    · exact (existsAt_iff_mem _ _).mpr (Or.inr hd)

/-- After `move_file`, something exists at the exact target file path. -/
theorem move_file_target_exists (fs : FS) (sp : RPath) (c : String) (tr sr : RPath) :
    (move_file fs sp c tr sr).1.existsAt (fileTargetPath sp tr sr) = true := by
  simp only [move_file, fileTargetPath, ctds_snd]
  split
  · assumption
  · refine (existsAt_iff_mem _ _).mpr (Or.inl ?_)
    exact ⟨_, List.mem_append_right _ (List.mem_singleton_self _), rfl⟩

/-- When both the mapped directory and the target file already exist,
`move_file` is the exact identity and reports a skip. -/
theorem move_file_skip (fs : FS) (sp : RPath) (c : String) (tr sr : RPath)
    (hdir : fs.existsAt (targetDirPath sp tr sr) = true)
    (hfile : fs.existsAt (fileTargetPath sp tr sr) = true) :
    move_file fs sp c tr sr = (fs, false) := by
  simp only [move_file, create_target_directory_structure, fileTargetPath] at *
  simp [hdir, hfile]

/-- C10: whenever any filesystem object — in particular a regular file —
already exists at the computed target directory path,
`create_target_directory_structure` returns that path as success,
creates nothing, and never checks that the object is a directory. -/
theorem c10_existing_object_short_circuits (fs : FS) (source target source_root : RPath)
    (h : fs.files.any
        (fun q => q.1 = targetDirPath source target source_root) = true) :
    create_target_directory_structure fs source target source_root
      = (fs, targetDirPath source target source_root) := by
  have hex : fs.existsAt (targetDirPath source target source_root) = true := by
    simp only [FS.existsAt, Bool.or_eq_true]
    exact Or.inl h
  simp only [create_target_directory_structure]
  simp [hex]

/-- Witness for C10: a regular file sits at the computed target directory
path `/t`, and the call returns `(fs, /t)` unchanged. -/
theorem c10_witness :
    ((⟨[(⟨true, ["t"]⟩, "junk")], []⟩ : FS).files.any
        (fun q => q.1 = targetDirPath ⟨true, ["s", "a.txt"]⟩ ⟨true, ["t"]⟩ ⟨true, ["s"]⟩))
        = true ∧
    create_target_directory_structure ⟨[(⟨true, ["t"]⟩, "junk")], []⟩
        ⟨true, ["s", "a.txt"]⟩ ⟨true, ["t"]⟩ ⟨true, ["s"]⟩
      = (⟨[(⟨true, ["t"]⟩, "junk")], []⟩,
         targetDirPath ⟨true, ["s", "a.txt"]⟩ ⟨true, ["t"]⟩ ⟨true, ["s"]⟩) :=
  ⟨by decide, c10_existing_object_short_circuits _ _ _ _ (by decide)⟩

/-- C4 counterexample: the directory entry `/s/a/b` under source root `/s`
with target root `/t` is mapped to `/t/a` — the image of its parent — and
not to `/t/a/b`, the image of the directory itself claimed by the spec. -/
theorem c4_counterexample :
    targetDirPath ⟨true, ["s", "a", "b"]⟩ ⟨true, ["t"]⟩ ⟨true, ["s"]⟩
        = ⟨true, ["t", "a"]⟩ ∧
    (⟨true, ["t", "a"]⟩ : RPath) ≠ ⟨true, ["t", "a", "b"]⟩ := by
  decide

/-- C4 amended: every path handed to the mapping — file entry or directory
entry alike — is mapped to the target-side image of its parent directory,
and when nothing exists at the mapped path it is created together with
every ancestor. -/
theorem c4_all_entries_map_to_parent (p target root rel : RPath)
    (h : p.stripRoot root = some rel) (hne : rel.components ≠ []) :
    targetDirPath p target root = target.join ⟨false, rel.components.dropLast⟩ ∧
    ∀ fs : FS, fs.existsAt (targetDirPath p target root) = false →
      ∀ d ∈ FS.dirChain (targetDirPath p target root),
        (create_target_directory_structure fs p target root).1.existsAt d = true := by
  constructor
  · have hrel : rel.absolute = false := by
      simp only [RPath.stripRoot] at h
      split at h
      · cases h; rfl
      · cases h
    unfold targetDirPath
    rw [h]
    simp only [Option.getD_some]
    rcases hc : rel.components with _ | ⟨a, as⟩
    · exact absurd hc hne
    · cases rel
      simp_all [RPath.parent]
  · intro fs hno d hd
    simp only [create_target_directory_structure, hno]
    simp only [Bool.false_eq_true, if_false]
    refine (existsAt_iff_mem _ _).mpr (Or.inr ?_)
    simp only [FS.createDirAll, List.mem_append, List.mem_filter]
    by_cases hc : d ∈ fs.dirs
    · exact Or.inl hc
    · exact Or.inr ⟨hd, by simpa using hc⟩

/-- Witness for C4 amended: the file entry `/s/a/b` under root `/s` maps
to `/t/a`. -/
theorem c4_amended_witness :
    ((⟨true, ["s", "a", "b"]⟩ : RPath).stripRoot ⟨true, ["s"]⟩
        = some ⟨false, ["a", "b"]⟩) ∧
    targetDirPath ⟨true, ["s", "a", "b"]⟩ ⟨true, ["t"]⟩ ⟨true, ["s"]⟩
      = RPath.join ⟨true, ["t"]⟩ ⟨false, ["a"]⟩ :=
  ⟨by decide,
   (c4_all_entries_map_to_parent ⟨true, ["s", "a", "b"]⟩ ⟨true, ["t"]⟩ ⟨true, ["s"]⟩
      ⟨false, ["a", "b"]⟩ (by decide) (by decide)).1⟩

/-- C9 counterexample: `/b/c.txt` is not under the source root `/a`; the
fallback uses the path itself, but joining the absolute fallback onto the
target root `/t` discards `/t` entirely: the computed directory is `/b`,
which is not `TargetRoot` joined with `P` and is not rooted at `/t`. -/
theorem c9_counterexample :
    (⟨true, ["b", "c.txt"]⟩ : RPath).stripRoot ⟨true, ["a"]⟩ = none ∧
    targetDirPath ⟨true, ["b", "c.txt"]⟩ ⟨true, ["t"]⟩ ⟨true, ["a"]⟩
        = ⟨true, ["b"]⟩ ∧
    (⟨true, ["b"]⟩ : RPath).stripRoot ⟨true, ["t"]⟩ = none := by
  decide

/-- C9 amended: when `P` is not under `SourceRoot`, `P` itself is used as
the relative path, and the computed directory is `TargetRoot` joined with
the parent of `P`; since `Path::join` replaces the receiver for an
absolute argument, an absolute `P` yields the parent of `P` itself, while
only a relative `P` stays rooted at `TargetRoot`. -/
theorem c9_fallback_join (p target root : RPath)
    (h : p.stripRoot root = none) (hne : p.components ≠ []) :
    targetDirPath p target root = target.join ⟨p.absolute, p.components.dropLast⟩ ∧
    (p.absolute = true →
      targetDirPath p target root = ⟨true, p.components.dropLast⟩) := by
  have hmain : targetDirPath p target root
      = target.join ⟨p.absolute, p.components.dropLast⟩ := by
    unfold targetDirPath
    rw [h]
    simp only [Option.getD_none]
    rcases hc : p.components with _ | ⟨a, as⟩
    · exact absurd hc hne
    · cases p
      simp_all [RPath.parent]
  refine ⟨hmain, fun habs => ?_⟩
  rw [hmain, habs]
  simp [RPath.join]

/-- Witness for C9 amended: the absolute path `/b/c.txt` outside root `/a`
maps to `/b`, the join having discarded the target root. -/
theorem c9_fallback_join_witness :
    ((⟨true, ["b", "c.txt"]⟩ : RPath).stripRoot ⟨true, ["a"]⟩ = none) ∧
    targetDirPath ⟨true, ["b", "c.txt"]⟩ ⟨true, ["t"]⟩ ⟨true, ["a"]⟩
      = ⟨true, ["b"]⟩ :=
  ⟨by decide,
   (c9_fallback_join ⟨true, ["b", "c.txt"]⟩ ⟨true, ["t"]⟩ ⟨true, ["a"]⟩
      (by decide) (by decide)).2 rfl⟩

/-- A successful open ends the retry loop at once with success. -/
theorem fetchLoop_ok (opens : Nat → OpenStep) (r idx : Nat) (reads : List ReadStep)
    (h : opens idx = OpenStep.ok reads) :
    fetchLoop opens r idx = ⟨FetchResult.success, idx + 1, []⟩ := by
  cases r <;> simp [fetchLoop, h]

/-- A transient failure with no retries left is the lock timeout. -/
theorem fetchLoop_transient_zero (opens : Nat → OpenStep) (idx : Nat)
    (h : transientErr (opens idx) = true) :
    fetchLoop opens 0 idx = ⟨FetchResult.lockTimeout, idx + 1, []⟩ := by
  cases ho : opens idx with
  | ok reads => rw [ho] at h; simp [transientErr] at h
  | err e =>
    rw [ho] at h
    simp only [transientErr] at h
    simp [fetchLoop, ho, h]

/-- A transient failure with retries left sleeps 2 seconds and reopens. -/
theorem fetchLoop_transient_succ (opens : Nat → OpenStep) (r idx : Nat)
    (h : transientErr (opens idx) = true) :
    fetchLoop opens (r + 1) idx =
      ⟨(fetchLoop opens r (idx + 1)).result, (fetchLoop opens r (idx + 1)).openAttempts,
        2 :: (fetchLoop opens r (idx + 1)).sleeps⟩ := by
  cases ho : opens idx with
  | ok reads => rw [ho] at h; simp [transientErr] at h
  | err e =>
    rw [ho] at h
    simp only [transientErr] at h
    simp [fetchLoop, ho, h]

/-- C2 counterexample: a stub whose every open attempt fails with
`PermissionDenied` is opened 6 times — not the 5 the claim states — with
the 5 two-second sleeps in between, before the lock-timeout failure. -/
theorem c2_counterexample :
    fetch_file_with_progress (some 0)
        (fun _ => OpenStep.err ⟨IoKind.permissionDenied⟩)
      = ⟨FetchResult.lockTimeout, 6, [2, 2, 2, 2, 2]⟩ ∧ (6 : Nat) ≠ 5 := by
  decide

/-- C2 amended: a stub file whose first 6 open attempts all fail
transiently is materialized with exactly 6 open attempts, a fixed
2-second backoff between consecutive attempts (5 sleeps), and then the
lock-timeout failure. -/
theorem c2_retry_cap (opens : Nat → OpenStep)
    (h : ((List.range 6).all (fun i => transientErr (opens i))) = true) :
    fetch_file_with_progress (some 0) opens
      = ⟨FetchResult.lockTimeout, 6, [2, 2, 2, 2, 2]⟩ := by
  have hi : ∀ i, i < 6 → transientErr (opens i) = true := fun i hlt =>
    List.all_eq_true.mp h i (List.mem_range.mpr hlt)
  have h0 := hi 0 (by omega)
  have h1 := hi 1 (by omega)
  have h2 := hi 2 (by omega)
  have h3 := hi 3 (by omega)
  have h4 := hi 4 (by omega)
  have h5 := hi 5 (by omega)
  simp only [fetch_file_with_progress, Option.getD_some, if_pos]
  rw [fetchLoop_transient_succ opens 4 0 h0, fetchLoop_transient_succ opens 3 1 h1,
    fetchLoop_transient_succ opens 2 2 h2, fetchLoop_transient_succ opens 1 3 h3,
    fetchLoop_transient_succ opens 0 4 h4, fetchLoop_transient_zero opens 5 h5]

/-- Witness for C2 amended: the always-locked stub. -/
theorem c2_retry_cap_witness :
    (((List.range 6).all
        (fun i => transientErr
          ((fun _ => OpenStep.err ⟨IoKind.permissionDenied⟩ : Nat → OpenStep) i))) = true) ∧
    fetch_file_with_progress (some 0) (fun _ => OpenStep.err ⟨IoKind.permissionDenied⟩)
      = ⟨FetchResult.lockTimeout, 6, [2, 2, 2, 2, 2]⟩ :=
  ⟨by decide, c2_retry_cap _ (by decide)⟩

/-- C5 counterexample: a stub that opens at once but hits a read error
mid-stream is reported as a success (one open attempt, no retry) — the
error is not surfaced as a failure of any kind. -/
theorem c5_counterexample :
    fetch_file_with_progress (some 0)
        (fun _ => OpenStep.ok
          [ReadStep.ok 5, ReadStep.err ⟨IoKind.otherKind⟩, ReadStep.ok 3])
      = ⟨FetchResult.success, 1, []⟩ ∧
    FetchResult.success ≠ FetchResult.ioError ⟨IoKind.otherKind⟩ ∧
    FetchResult.success ≠ FetchResult.lockTimeout := by
  decide

/-- C5 amended: once the open of a stub succeeds, materialization returns
success after that single attempt whatever the read trace contains — a
mid-stream read error is silently swallowed by the `while let` loop, never
retried and never surfaced. -/
theorem c5_midstream_error_swallowed (opens : Nat → OpenStep) (reads : List ReadStep)
    (h : opens 0 = OpenStep.ok reads) :
    fetch_file_with_progress (some 0) opens = ⟨FetchResult.success, 1, []⟩ := by
  simp only [fetch_file_with_progress, Option.getD_some, if_pos]
  exact fetchLoop_ok opens 5 0 reads h

/-- Witness for C5 amended: a read trace that errors after 5 bytes. -/
theorem c5_midstream_witness :
    ((fun _ => OpenStep.ok [ReadStep.ok 5, ReadStep.err ⟨IoKind.otherKind⟩]
        : Nat → OpenStep) 0
      = OpenStep.ok [ReadStep.ok 5, ReadStep.err ⟨IoKind.otherKind⟩]) ∧
    fetch_file_with_progress (some 0)
        (fun _ => OpenStep.ok [ReadStep.ok 5, ReadStep.err ⟨IoKind.otherKind⟩])
      = ⟨FetchResult.success, 1, []⟩ :=
  ⟨rfl, c5_midstream_error_swallowed _ _ rfl⟩

/-- C8 counterexample: a root that is a regular file — not a directory —
makes `visit_dirs` log an error but return `Ok` with two empty catalogs,
not a traversal error. -/
theorem c8_counterexample :
    visit_dirs ⟨true, ["root.bin"]⟩ (FTree.file "root.bin" (some 7))
      = Except.ok ([], []) := by
  simp [visit_dirs, processFiles, processDirs, rustDedupBy]

/-- C8 amended: for every root that is not a directory, `visit_dirs`
succeeds with empty file and directory catalogs (the only log is an error
line); it does not fail. -/
theorem c8_nondir_root_ok_empty (p : RPath) (n : String) (sz : Option Nat) :
    visit_dirs p (FTree.file n sz) = Except.ok ([], []) := by
  simp [visit_dirs, processFiles, processDirs, rustDedupBy]

/-- Keys along `a :: dedupKeep same a l` are strictly increasing when `l`
is sorted by key and bounded below by `key a`. -/
theorem chain_dedupKeep {α β : Type} [LinearOrder β] (key : α → β)
    (same : α → α → Bool) (hsame : ∀ x y, same x y = true ↔ key x = key y) :
    ∀ (l : List α) (a : α),
      (∀ x ∈ l, key a ≤ key x) →
      l.Pairwise (fun x y => key x ≤ key y) →
      ((a :: dedupKeep same a l).map key).Chain' (· < ·)
  | [], a, _, _ => by simp [dedupKeep]
  | b :: rest, a, ha, hp => by
    rw [List.pairwise_cons] at hp
    obtain ⟨hb, hrest⟩ := hp
    by_cases hs : same b a = true
    · have hred : dedupKeep same a (b :: rest) = dedupKeep same a rest := by
        simp [dedupKeep, hs]
      rw [hred]
      exact chain_dedupKeep key same hsame rest a
        (fun x hx => ha x (List.mem_cons_of_mem _ hx)) hrest
    · have hne : key b ≠ key a := fun hkey => hs ((hsame b a).mpr hkey)
      have hlt : key a < key b :=
        lt_of_le_of_ne (ha b (List.mem_cons_self _ _)) (Ne.symm hne)
      have hred : dedupKeep same a (b :: rest) = b :: dedupKeep same b rest := by
        simp [dedupKeep, hs]
      rw [hred]
      have hchain := chain_dedupKeep key same hsame rest b hb hrest
      simp only [List.map_cons] at hchain ⊢
      exact List.chain'_cons.mpr ⟨hlt, hchain⟩

/-- Sorting by key then removing consecutive key-duplicates leaves
pairwise-distinct keys. -/
theorem nodup_rustDedupBy_key {α β : Type} [LinearOrder β] (key : α → β)
    (same : α → α → Bool) (hsame : ∀ x y, same x y = true ↔ key x = key y)
    (l : List α) (hl : l.Pairwise (fun x y => key x ≤ key y)) :
    ((rustDedupBy same l).map key).Nodup := by
  cases l with
  | nil => simp [rustDedupBy]
  | cons a rest =>
    rw [List.pairwise_cons] at hl
    have hchain := chain_dedupKeep key same hsame rest a hl.1 hl.2
    have hpair : ((a :: dedupKeep same a rest).map key).Pairwise (· < ·) :=
      List.chain'_iff_pairwise.mp hchain
    simp only [rustDedupBy]
    exact hpair.imp (fun h => ne_of_lt h)

/-- The file catalog post-processing leaves no duplicate paths. -/
theorem processFiles_paths_nodup (l : List FileC) :
    ((processFiles l).map FileC.path).Nodup := by
  have hsorted : (List.insertionSort filePathLe l).Pairwise
      (fun x y : FileC => x.path ≤ y.path) :=
    List.sorted_insertionSort filePathLe l
  have hnd := nodup_rustDedupBy_key FileC.path
    (fun a b => decide (a.path = b.path)) (fun x y => by simp) _ hsorted
  have hperm := List.perm_insertionSort fileSizeDesc
    (rustDedupBy (fun a b => decide (a.path = b.path))
      (List.insertionSort filePathLe l))
  exact ((hperm.map FileC.path).nodup_iff).mpr hnd

/-- The directory catalog post-processing leaves no duplicates. -/
theorem processDirs_nodup (l : List RPath) : (processDirs l).Nodup := by
  have hsorted : (List.insertionSort (fun a b : RPath => a ≤ b) l).Pairwise
      (fun x y : RPath => x ≤ y) :=
    List.sorted_insertionSort _ l
  have h := nodup_rustDedupBy_key (fun p : RPath => p) (fun a b => decide (a = b))
    (fun x y => by simp) _ hsorted
  simpa [processDirs] using h

/-- Every `visit_dirs` call returns post-processed catalogs. -/
theorem visit_dirs_shape (p : RPath) (t : FTree) :
    ∃ fl dl, visit_dirs p t = Except.ok (processFiles fl, processDirs dl) := by
  cases t with
  | file n sz => exact ⟨[], [], by simp [visit_dirs]⟩
  | dir n cs =>
    refine ⟨(visitChildren p cs).1 ++ (visitChildren p cs).2.flatMap (fun t => t.2.1),
      (visitChildren p cs).2.flatMap (fun t => t.1 :: t.2.2), ?_⟩
    simp [visit_dirs]

/-- C6: every catalog pair returned by traversal has no two file entries
with the same absolute source path and no duplicate directory paths. -/
theorem c6_catalogs_nodup (p : RPath) (t : FTree) (files : List FileC)
    (dirs : List RPath) (h : visit_dirs p t = Except.ok (files, dirs)) :
    (files.map FileC.path).Nodup ∧ dirs.Nodup := by
  obtain ⟨fl, dl, heq⟩ := visit_dirs_shape p t
  rw [heq] at h
  simp only [Except.ok.injEq, Prod.mk.injEq] at h
  obtain ⟨h1, h2⟩ := h
  exact ⟨h1 ▸ processFiles_paths_nodup fl, h2 ▸ processDirs_nodup dl⟩

/-- Witness for C6: a root with a single file. -/
theorem c6_catalogs_nodup_witness :
    (visit_dirs ⟨true, ["s"]⟩ (FTree.dir "s" [FTree.file "a.txt" (some 3)])
        = Except.ok ([⟨⟨true, ["s", "a.txt"]⟩, some 3⟩], [])) ∧
    (([⟨⟨true, ["s", "a.txt"]⟩, some 3⟩] : List FileC).map FileC.path).Nodup ∧
    ([] : List RPath).Nodup :=
  ⟨by simp [visit_dirs, visitChildren, processFiles, processDirs, rustDedupBy,
      dedupKeep, RPath.join],
   c6_catalogs_nodup ⟨true, ["s"]⟩ (FTree.dir "s" [FTree.file "a.txt" (some 3)]) _ _
     (by simp [visit_dirs, visitChildren, processFiles, processDirs, rustDedupBy,
       dedupKeep, RPath.join])⟩

/-- C7: the file catalog returned by traversal is pairwise descending in
reported size, an unreadable (`none`) size counting as zero; in
particular every pair of adjacent entries is ordered largest-first. -/
theorem c7_catalog_size_descending (p : RPath) (t : FTree) (files : List FileC)
    (dirs : List RPath) (h : visit_dirs p t = Except.ok (files, dirs)) :
    files.Pairwise (fun a b => b.size.getD 0 ≤ a.size.getD 0) := by
  obtain ⟨fl, dl, heq⟩ := visit_dirs_shape p t
  rw [heq] at h
  simp only [Except.ok.injEq, Prod.mk.injEq] at h
  obtain ⟨h1, _⟩ := h
  have hs : (processFiles fl).Pairwise fileSizeDesc :=
    List.sorted_insertionSort fileSizeDesc _
  rw [← h1]
  refine hs.imp ?_
  intro a b hab
  rcases ha : a.size with _ | m <;> rcases hb : b.size with _ | n <;>
    simp_all [fileSizeDesc, optLe]

/-- Witness for C7: a root with a single file of unreadable size. -/
theorem c7_catalog_size_descending_witness :
    (visit_dirs ⟨true, ["r"]⟩ (FTree.dir "r" [FTree.file "b.bin" none])
        = Except.ok ([⟨⟨true, ["r", "b.bin"]⟩, none⟩], [])) ∧
    ([⟨⟨true, ["r", "b.bin"]⟩, none⟩] : List FileC).Pairwise
      (fun a b => b.size.getD 0 ≤ a.size.getD 0) :=
  ⟨by simp [visit_dirs, visitChildren, processFiles, processDirs, rustDedupBy,
      dedupKeep, RPath.join],
   c7_catalog_size_descending ⟨true, ["r"]⟩ (FTree.dir "r" [FTree.file "b.bin" none]) _ []
     (by simp [visit_dirs, visitChildren, processFiles, processDirs, rustDedupBy,
       dedupKeep, RPath.join])⟩

/-- Rewriting `move_file` through the named target path. -/
theorem move_file_eq (fs : FS) (sp : RPath) (c : String) (tr sr : RPath) :
    move_file fs sp c tr sr =
      (if (create_target_directory_structure fs sp tr sr).1.existsAt
          (fileTargetPath sp tr sr) then
        ((create_target_directory_structure fs sp tr sr).1, false)
      else
        ({ (create_target_directory_structure fs sp tr sr).1 with
            files := (create_target_directory_structure fs sp tr sr).1.files
              ++ [(fileTargetPath sp tr sr, c)] }, true)) := by
  simp only [move_file, ctds_snd, fileTargetPath]

/-- Folding the migration step from any write-count accumulator. -/
theorem migrateAll_acc (tr sr : RPath) :
    ∀ (entries : List (RPath × String)) (fs : FS) (n : Nat),
      entries.foldl
          (fun st e =>
            let step := move_file st.1 e.1 e.2 tr sr
            (step.1, st.2 + (if step.2 then 1 else 0))) (fs, n)
        = ((migrateAll fs entries tr sr).1, n + (migrateAll fs entries tr sr).2)
  | [], fs, n => by simp [migrateAll]
  | e :: rest, fs, n => by
    simp only [migrateAll, List.foldl_cons]
    rw [migrateAll_acc tr sr rest (move_file fs e.1 e.2 tr sr).1
        (n + if (move_file fs e.1 e.2 tr sr).2 then 1 else 0),
      migrateAll_acc tr sr rest (move_file fs e.1 e.2 tr sr).1
        (0 + if (move_file fs e.1 e.2 tr sr).2 then 1 else 0)]
    simp only [Prod.mk.injEq]
    exact ⟨trivial, by omega⟩

/-- One-step unfolding of `migrateAll`. -/
theorem migrateAll_cons (fs : FS) (e : RPath × String)
    (rest : List (RPath × String)) (tr sr : RPath) :
    migrateAll fs (e :: rest) tr sr
      = ((migrateAll (move_file fs e.1 e.2 tr sr).1 rest tr sr).1,
         (if (move_file fs e.1 e.2 tr sr).2 then 1 else 0)
           + (migrateAll (move_file fs e.1 e.2 tr sr).1 rest tr sr).2) := by
  conv_lhs => rw [migrateAll]
  rw [List.foldl_cons]
  dsimp only
  rw [migrateAll_acc tr sr rest]
  simp only [Prod.mk.injEq]
  exact ⟨trivial, by omega⟩

/-- Existence of any object survives a whole migration pass. -/
theorem migrateAll_mono (tr sr : RPath) :
    ∀ (entries : List (RPath × String)) (fs : FS) (q : RPath),
      fs.existsAt q = true → (migrateAll fs entries tr sr).1.existsAt q = true
  | [], fs, q, h => by simpa [migrateAll] using h
  | e :: rest, fs, q, h => by
    rw [migrateAll_cons]
    exact migrateAll_mono tr sr rest _ q (move_file_mono fs e.1 e.2 tr sr q h)

/-- After a migration pass, every entry has its mapped directory and its
exact target path present. -/
theorem migrateAll_posts (tr sr : RPath) :
    ∀ (entries : List (RPath × String)) (fs : FS), ∀ e ∈ entries,
      (migrateAll fs entries tr sr).1.existsAt (targetDirPath e.1 tr sr) = true ∧
      (migrateAll fs entries tr sr).1.existsAt (fileTargetPath e.1 tr sr) = true
  | [], _, e, he => absurd he (List.not_mem_nil e)
  | a :: rest, fs, e, he => by
    rw [migrateAll_cons]
    rcases List.mem_cons.mp he with rfl | hrest
    · constructor
      · exact migrateAll_mono tr sr rest _ _ (move_file_dir_exists fs e.1 e.2 tr sr)
      · exact migrateAll_mono tr sr rest _ _ (move_file_target_exists fs e.1 e.2 tr sr)
    · exact migrateAll_posts tr sr rest _ e hrest

/-- A migration pass over entries whose directories and targets all
already exist does nothing at all. -/
theorem migrateAll_skip_all (tr sr : RPath) :
    ∀ (entries : List (RPath × String)) (fs : FS),
      (∀ e ∈ entries, fs.existsAt (targetDirPath e.1 tr sr) = true ∧
        fs.existsAt (fileTargetPath e.1 tr sr) = true) →
      migrateAll fs entries tr sr = (fs, 0)
  | [], fs, _ => by simp [migrateAll]
  | a :: rest, fs, h => by
    have ha := h a (List.mem_cons_self _ _)
    have hmv : move_file fs a.1 a.2 tr sr = (fs, false) :=
      move_file_skip fs a.1 a.2 tr sr ha.1 ha.2
    rw [migrateAll_cons, hmv]
    rw [migrateAll_skip_all tr sr rest fs
      (fun e he => h e (List.mem_cons_of_mem _ he))]
    simp

/-- C3: a file entry whose exact target path is already occupied is
skipped — success is reported, the file map is untouched — and a second
migration pass over the same catalog against the resulting target
performs zero writes and leaves the target tree identical. -/
theorem c3_skip_and_second_run_identity :
    (∀ (fs : FS) (sp : RPath) (c : String) (tr sr : RPath),
        fs.existsAt (fileTargetPath sp tr sr) = true →
        (move_file fs sp c tr sr).2 = false ∧
        (move_file fs sp c tr sr).1.files = fs.files) ∧
    (∀ (fs : FS) (entries : List (RPath × String)) (tr sr : RPath),
        migrateAll (migrateAll fs entries tr sr).1 entries tr sr
          = ((migrateAll fs entries tr sr).1, 0)) := by
  constructor
  · intro fs sp c tr sr h
    have hft : (create_target_directory_structure fs sp tr sr).1.existsAt
        (fileTargetPath sp tr sr) = true := ctds_mono fs sp tr sr _ h
    constructor
    · simp [move_file_eq, hft]
    · simp [move_file_eq, hft, ctds_files]
  · intro fs entries tr sr
    exact migrateAll_skip_all tr sr entries _
      (fun e he => migrateAll_posts tr sr entries fs e he)

/-- Witness for C3: a target file already present at `/t/a.txt` is
skipped and the file map stays unchanged. -/
theorem c3_witness :
    ((⟨[(⟨true, ["t", "a.txt"]⟩, "x")], []⟩ : FS).existsAt
        (fileTargetPath ⟨true, ["s", "a.txt"]⟩ ⟨true, ["t"]⟩ ⟨true, ["s"]⟩) = true) ∧
    ((move_file ⟨[(⟨true, ["t", "a.txt"]⟩, "x")], []⟩ ⟨true, ["s", "a.txt"]⟩ "y"
        ⟨true, ["t"]⟩ ⟨true, ["s"]⟩).2 = false ∧
      (move_file ⟨[(⟨true, ["t", "a.txt"]⟩, "x")], []⟩ ⟨true, ["s", "a.txt"]⟩ "y"
        ⟨true, ["t"]⟩ ⟨true, ["s"]⟩).1.files = [(⟨true, ["t", "a.txt"]⟩, "x")]) :=
  ⟨by decide,
   c3_skip_and_second_run_identity.1 ⟨[(⟨true, ["t", "a.txt"]⟩, "x")], []⟩
     ⟨true, ["s", "a.txt"]⟩ "y" ⟨true, ["t"]⟩ ⟨true, ["s"]⟩ (by decide)⟩

/-- The result a worker reports for one entry is decided by its fetch. -/
theorem perEntry_snd (fs : FS) (contents : RPath → String)
    (opens : RPath → Nat → OpenStep) (f : FileC) (tr sr : RPath) :
    (perEntry fs contents opens f tr sr).2 = entryResult opens f := by
  cases h : (fetch_file_with_progress f.size (opens f.path)).toResult with
  | ok u => cases u; simp [perEntry, entryResult, h]
  | error e => simp [perEntry, entryResult, h]

/-- The collection stops at a failing entry: its error is returned and the
remaining entries are never started. -/
theorem runFiles_halts (contents : RPath → String) (opens : RPath → Nat → OpenStep)
    (tr sr : RPath) (fs : FS) (f : FileC) (rest : List FileC) (e : IoErr)
    (h : entryResult opens f = Except.error e) :
    runFiles contents opens tr sr fs (f :: rest)
      = ((perEntry fs contents opens f tr sr).1, Except.error e) := by
  simp only [runFiles]
  rw [perEntry_snd, h]

/-- A failing entry anywhere in the catalog keeps the collected per-file
result away from `Ok`: either the loop reaches it and stops with its
error, or it stops even earlier with another error. -/
theorem runFiles_err (contents : RPath → String) (opens : RPath → Nat → OpenStep)
    (tr sr : RPath) :
    ∀ (files : List FileC) (fs : FS) (f : FileC), f ∈ files →
      entryResult opens f ≠ Except.ok () →
      (runFiles contents opens tr sr fs files).2 ≠ Except.ok ()
  | [], _, f, hf, _ => absurd hf (List.not_mem_nil f)
  | a :: rest, fs, f, hf, hfail => by
    cases ha : entryResult opens a with
    | error e =>
      rw [runFiles_halts contents opens tr sr fs a rest e ha]
      intro h
      exact Except.noConfusion h
    | ok u =>
      cases u
      have hfr : f ∈ rest := by
        rcases List.mem_cons.mp hf with rfl | hr
        · exact absurd ha hfail
        · exact hr
      have hstep : runFiles contents opens tr sr fs (a :: rest)
          = runFiles contents opens tr sr (perEntry fs contents opens a tr sr).1 rest := by
        simp only [runFiles]
        rw [perEntry_snd, ha]
      rw [hstep]
      exact runFiles_err contents opens tr sr rest _ f hfr hfail

/-- C1 counterexample: a run whose only discovered file is a stub that
never becomes openable; its per-file lock-timeout error propagates out of
the per-file loop and `main` returns it — the failure is not confined to
the entry even though the source root itself was read successfully. -/
theorem c1_counterexample :
    (mainRun (FTree.dir "s" [FTree.file "stub.bin" (some 0)]) ⟨[], []⟩ (fun _ => "")
        (fun _ _ => OpenStep.err ⟨IoKind.permissionDenied⟩)
        ⟨true, ["s"]⟩ ⟨true, ["t"]⟩).2 = Except.error lockTimeoutErr ∧
    Except.error lockTimeoutErr ≠ (Except.ok () : Except IoErr Unit) := by
  constructor
  · have hvd : visit_dirs ⟨true, ["s"]⟩ (FTree.dir "s" [FTree.file "stub.bin" (some 0)])
        = Except.ok ([⟨⟨true, ["s", "stub.bin"]⟩, some 0⟩], []) := by
      simp [visit_dirs, visitChildren, processFiles, processDirs, rustDedupBy,
        dedupKeep, RPath.join]
    simp only [mainRun, hvd]
    rfl
  · intro h
    exact Except.noConfusion h

/-- C1 amended: a per-file materialization failure is logged for that
entry, but it is not confined to it: the parallel collection stops at the
first error — entries not yet started are skipped, as the second part
states — and `main` returns that error, so any per-file failure, not only
a failure to read the source root, makes the run exit with an error. -/
theorem c1_per_file_error_fatal :
    (∀ (tree : FTree) (fs : FS) (contents : RPath → String)
        (opens : RPath → Nat → OpenStep) (sr tr : RPath)
        (files : List FileC) (dirs : List RPath),
      visit_dirs sr tree = Except.ok (files, dirs) →
      ∀ f ∈ files, entryResult opens f ≠ Except.ok () →
      (mainRun tree fs contents opens sr tr).2 ≠ Except.ok ()) ∧
    (∀ (contents : RPath → String) (opens : RPath → Nat → OpenStep)
        (tr sr : RPath) (fs : FS) (f : FileC) (rest : List FileC) (e : IoErr),
      entryResult opens f = Except.error e →
      runFiles contents opens tr sr fs (f :: rest)
        = ((perEntry fs contents opens f tr sr).1, Except.error e)) := by
  constructor
  · intro tree fs contents opens sr tr files dirs hvd f hf hfail hok
    simp only [mainRun, hvd] at hok
    exact runFiles_err contents opens tr sr files _ f hf hfail hok
  · exact fun contents opens tr sr fs f rest e h =>
      runFiles_halts contents opens tr sr fs f rest e h

/-- Witness for C1 amended: the single-stub run from the counterexample
input. -/
theorem c1_per_file_error_fatal_witness :
    (visit_dirs ⟨true, ["s"]⟩ (FTree.dir "s" [FTree.file "stub.bin" (some 0)])
        = Except.ok ([⟨⟨true, ["s", "stub.bin"]⟩, some 0⟩], [])) ∧
    ((⟨⟨true, ["s", "stub.bin"]⟩, some 0⟩ : FileC)
        ∈ [(⟨⟨true, ["s", "stub.bin"]⟩, some 0⟩ : FileC)]) ∧
    (entryResult (fun _ _ => OpenStep.err ⟨IoKind.permissionDenied⟩)
        ⟨⟨true, ["s", "stub.bin"]⟩, some 0⟩ ≠ Except.ok ()) ∧
    (mainRun (FTree.dir "s" [FTree.file "stub.bin" (some 0)]) ⟨[], []⟩ (fun _ => "")
        (fun _ _ => OpenStep.err ⟨IoKind.permissionDenied⟩)
        ⟨true, ["s"]⟩ ⟨true, ["t"]⟩).2 ≠ Except.ok () :=
  ⟨by simp [visit_dirs, visitChildren, processFiles, processDirs, rustDedupBy,
      dedupKeep, RPath.join],
   List.mem_cons_self _ _,
   fun h => by
     have h2 : Except.error lockTimeoutErr = (Except.ok () : Except IoErr Unit) := h
     exact Except.noConfusion h2,
   c1_per_file_error_fatal.1 (FTree.dir "s" [FTree.file "stub.bin" (some 0)]) ⟨[], []⟩
     (fun _ => "") (fun _ _ => OpenStep.err ⟨IoKind.permissionDenied⟩)
     ⟨true, ["s"]⟩ ⟨true, ["t"]⟩ [⟨⟨true, ["s", "stub.bin"]⟩, some 0⟩] []
     (by simp [visit_dirs, visitChildren, processFiles, processDirs, rustDedupBy,
       dedupKeep, RPath.join])
     ⟨⟨true, ["s", "stub.bin"]⟩, some 0⟩ (List.mem_cons_self _ _)
     (fun h => by
       have h2 : Except.error lockTimeoutErr = (Except.ok () : Except IoErr Unit) := h
       exact Except.noConfusion h2)⟩

end Xerox
